import Mathlib

/-!
# Verification of the KingDB write-throttling rate limiter

Shallow embedding of `src/cache/rate_limiter.h` (class `kdb::RateLimiter`).

Modelling conventions:
* `uint64_t` values are `ℕ`; every C++ addition or multiplication that can
  wrap is taken modulo `2 ^ 64`.
* The `double` arithmetic of the controller (`ratio` comparisons, the
  multiplicative coefficient updates) and of `WriteEnd` is modelled as exact
  rational arithmetic; the C cast `(uint64_t)` of a non-negative `double`
  is modelled as `Nat.floor` (truncation toward zero).
* Wall-clock reads (`std::time(0)`, `system_clock::now()`) are external
  inputs, so the corresponding operations take the sampled time as an extra
  argument.
* The mutex only serialises concurrent calls; the sequential semantics
  embedded here is the body of each member function in program order.
-/

namespace kdb

/-- `2^64`, the modulus of `uint64_t` arithmetic. -/
def U64 : ℕ := 2 ^ 64

/-- The fields of `class RateLimiter` (rate_limiter.h).  The C++ constructor
leaves `epoch_write_start_` and `epoch_write_end_` uninitialised; they are
modelled as starting at 0 (they are only read after a `WriteStart`). -/
structure RateLimiter where
  rate_limit_ : ℕ
  rate_arriving_ : ℕ
  rate_arriving_adjusted_ : ℕ
  epoch_last_ : ℕ
  epoch_current_ : ℕ
  duration_slept_ : ℕ
  bytes_per_microsecond_ : ℕ
  epoch_write_start_ : ℕ
  epoch_write_end_ : ℕ
  rates_ : List ℕ
  deriving Repr, DecidableEq

namespace RateLimiter

/-- The constructor `RateLimiter(uint64_t rate_limit)` (rate_limiter.h
lines 17–26). -/
def init (rate_limit : ℕ) : RateLimiter where
  rate_limit_ := rate_limit
  rate_arriving_ := 250 * 1024 * 1024
  rate_arriving_adjusted_ := 0
  epoch_last_ := 0
  epoch_current_ := 0
  duration_slept_ := 0
  bytes_per_microsecond_ := 5
  epoch_write_start_ := 0
  epoch_write_end_ := 0
  rates_ := []

/-- `StoreWritingRate(uint64_t rate)` (rate_limiter.h lines 120–125):
`if (rates_.size() >= 10) rates_.erase(rates_.begin()); rates_.push_back(rate);` -/
def storeWritingRate (rates : List ℕ) (rate : ℕ) : List ℕ :=
  (if 10 ≤ rates.length then rates.drop 1 else rates) ++ [rate]

/-- `GetWritingRate()` (rate_limiter.h lines 127–139).  The summation loop
accumulates into a `uint64_t`, hence the modulus at every addition. -/
def GetWritingRate (rate_limit_ : ℕ) (rates_ : List ℕ) : ℕ :=
  if rates_.length = 0 then 1 * 1024 * 1024
  else
    let sum := rates_.foldl (fun s r => (s + r) % U64) 0
    let rate_limit_current := sum / rates_.length
    if 0 < rate_limit_ ∧ rate_limit_ < rate_limit_current then rate_limit_
    else rate_limit_current

/-- The clamp-and-bump step `if (bytes_per_microsecond_ <= 5)
bytes_per_microsecond_ += 1;` applied after every multiplicative
adjustment (rate_limiter.h lines 56 and 70). -/
def bump (c : ℕ) : ℕ :=
  if c ≤ 5 then c + 1 else c

/-- The controller adjustment performed inside the epoch-rollover branch of
`Tick` (rate_limiter.h lines 43–71).  `adj` is `rate_arriving_adjusted_`,
`w_` is the value returned by `GetWritingRate()`, and `c` is the incoming
`bytes_per_microsecond_`.

The C++ computes `double ratio = (double)adj / (double)w_` and compares it
against the literals 1.50/1.10/1.05 and 0.5/0.90/0.95; those comparisons are
rendered as the equivalent cross-multiplied `ℕ` comparisons.  When `w_ = 0`
the double ratio is `inf` (for `adj > 0`) or `NaN` (for `adj = 0`); the `ℕ`
comparisons reproduce the branch taken in both cases.  Each `*=` on the
`uint64_t` coefficient truncates the rational product, i.e. multiplies and
then floor-divides. -/
def adjustCoefficient (adj w_ c : ℕ) : ℕ :=
  if w_ < adj then
    bump (if 3 * w_ < 2 * adj then c * 3 / 4
          else if 11 * w_ < 10 * adj then c * 19 / 20
          else if 21 * w_ < 20 * adj then c * 99 / 100
          else c * 199 / 200)
  else
    bump (if 2 * adj < w_ then c * 5 / 4
          else if 10 * adj < 9 * w_ then c * 21 / 20
          else if 20 * adj < 19 * w_ then c * 101 / 100
          else c * 201 / 200)

/-- The sleep computation of `Tick` (rate_limiter.h lines 82–88):
`sleep_microseconds = bytes_arriving / bytes_per_microsecond_` guarded by
`bytes_per_microsecond_ > 0`, then clamped to 50000. -/
def sleepTime (bytes_per_microsecond bytes_arriving : ℕ) : ℕ :=
  let sl0 := if 0 < bytes_per_microsecond
             then bytes_arriving / bytes_per_microsecond else 0
  if 50000 < sl0 then 50000 else sl0

/-- `Tick(uint64_t bytes_arriving)` (rate_limiter.h lines 31–95).  `now` is
the value sampled from `std::time(0)`.  The returned `ℕ` is the number of
microseconds the call sleeps (`sleep_microseconds` after clamping, i.e. the
argument of `sleep_for` when nonzero, otherwise 0). -/
def Tick (s : RateLimiter) (now bytes_arriving : ℕ) : RateLimiter × ℕ :=
  let s1 :=
    if now ≠ s.epoch_last_ then
      let adj := (s.rate_arriving_ + s.bytes_per_microsecond_ * s.duration_slept_) % U64
      { s with
        epoch_current_ := now
        rate_arriving_adjusted_ := adj
        duration_slept_ := 0
        rate_arriving_ := 0
        epoch_last_ := now
        bytes_per_microsecond_ :=
          adjustCoefficient adj (GetWritingRate s.rate_limit_ s.rates_)
            s.bytes_per_microsecond_ }
    else { s with epoch_current_ := now }
  let s2 := { s1 with rate_arriving_ := (s1.rate_arriving_ + bytes_arriving) % U64 }
  let sl := sleepTime s2.bytes_per_microsecond_ bytes_arriving
  if sl ≠ 0 then ({ s2 with duration_slept_ := (s2.duration_slept_ + sl) % U64 }, sl)
  else (s2, sl)

/-- `WriteStart()` (rate_limiter.h lines 98–101); `now_ms` is the sampled
millisecond timestamp. -/
def WriteStart (s : RateLimiter) (now_ms : ℕ) : RateLimiter :=
  { s with epoch_write_start_ := now_ms }

/-- The sample computed by `WriteEnd` (rate_limiter.h lines 104–117):
`rate_writing = num_bytes_written` when the two millisecond stamps agree,
otherwise `(uint64_t)(num_bytes_written / (((double)end - (double)start)/1000))`,
the double quotient modelled exactly over `ℚ` and the cast as truncation. -/
def writeEndRate (start_ms end_ms num_bytes_written : ℕ) : ℕ :=
  if start_ms = end_ms then num_bytes_written
  else ⌊(num_bytes_written : ℚ) / (((end_ms : ℚ) - (start_ms : ℚ)) / 1000)⌋₊

/-- `WriteEnd(uint64_t num_bytes_written)` (rate_limiter.h lines 104–117);
`now_ms` is the sampled millisecond timestamp stored into
`epoch_write_end_`. -/
def WriteEnd (s : RateLimiter) (now_ms num_bytes_written : ℕ) : RateLimiter :=
  { s with
    epoch_write_end_ := now_ms
    rates_ := storeWritingRate s.rates_
      (writeEndRate s.epoch_write_start_ now_ms num_bytes_written) }

/-- The states of a `RateLimiter` reachable from construction by any
interleaving of `Tick`, `WriteStart` and `WriteEnd` calls, with arbitrary
sampled clock values and byte counts. -/
inductive Reachable : RateLimiter → Prop where
  | init : ∀ rate_limit, Reachable (init rate_limit)
  | tick : ∀ s now bytes_arriving, Reachable s → Reachable (Tick s now bytes_arriving).1
  | writeStart : ∀ s now_ms, Reachable s → Reachable (WriteStart s now_ms)
  | writeEnd : ∀ s now_ms num_bytes_written, Reachable s →
      Reachable (WriteEnd s now_ms num_bytes_written)

end RateLimiter

end kdb

namespace kdb
namespace RateLimiter

/-! ## Helper lemmas -/

lemma one_le_bump (c : ℕ) : 1 ≤ bump c := by
  unfold bump; split_ifs <;> omega

lemma one_le_adjustCoefficient (adj w_ c : ℕ) : 1 ≤ adjustCoefficient adj w_ c := by
  unfold adjustCoefficient
  split_ifs <;> exact one_le_bump _

lemma sleepTime_le (c b : ℕ) : sleepTime c b ≤ 50000 := by
  unfold sleepTime; dsimp only
  split_ifs <;> omega

lemma sleepTime_eq_min (c b : ℕ) : sleepTime c b = min (b / c) 50000 := by
  unfold sleepTime; dsimp only
  rcases Nat.eq_zero_or_pos c with hc | hc
  · subst hc; simp
  · rw [if_pos hc]
    rcases le_or_lt (b / c) 50000 with h | h
    · rw [if_neg (not_lt.mpr h), min_eq_left h]
    · rw [if_pos h, min_eq_right (le_of_lt h)]

lemma Tick_fst_bytes_per_microsecond (s : RateLimiter) (now b : ℕ) :
    (Tick s now b).1.bytes_per_microsecond_ =
      if now ≠ s.epoch_last_ then
        adjustCoefficient
          ((s.rate_arriving_ + s.bytes_per_microsecond_ * s.duration_slept_) % U64)
          (GetWritingRate s.rate_limit_ s.rates_) s.bytes_per_microsecond_
      else s.bytes_per_microsecond_ := by
  unfold Tick; dsimp only
  split_ifs <;> rfl

lemma Tick_fst_rates (s : RateLimiter) (now b : ℕ) :
    (Tick s now b).1.rates_ = s.rates_ := by
  unfold Tick; dsimp only
  split_ifs <;> rfl

lemma Tick_snd (s : RateLimiter) (now b : ℕ) :
    (Tick s now b).2 = sleepTime (Tick s now b).1.bytes_per_microsecond_ b := by
  unfold Tick; dsimp only
  split_ifs <;> rfl

/-! ## C1: the throttle coefficient is at least 1 in every reachable state -/

/-- C1: in the initial state and after any sequence of `Tick`, `WriteStart`
and `WriteEnd` calls (any observed clocks, arrival byte counts and writing
rates), `bytes_per_microsecond_ ≥ 1`; moreover the controller adjustment
itself returns a value ≥ 1 from any input whatsoever, so the invariant holds
immediately after every epoch-rollover adjustment. -/
theorem C1_coefficient_ge_one :
    (∀ s : RateLimiter, Reachable s → 1 ≤ s.bytes_per_microsecond_) ∧
    (∀ adj w_ c : ℕ, 1 ≤ adjustCoefficient adj w_ c) := by
  constructor
  · intro s hs
    induction hs with
    | init rate_limit => norm_num [init]
    | tick s now b _ ih =>
        rw [Tick_fst_bytes_per_microsecond]
        split_ifs
        · exact one_le_adjustCoefficient _ _ _
        · exact ih
    | writeStart s now_ms _ ih => exact ih
    | writeEnd s now_ms n _ ih => exact ih
  · exact one_le_adjustCoefficient

/-- C1, witness: the invariant instantiated at the freshly constructed
limiter and at one concrete controller adjustment. -/
theorem C1_coefficient_ge_one_witness :
    1 ≤ (init 0).bytes_per_microsecond_ ∧ 1 ≤ adjustCoefficient 8 5 5 :=
  ⟨C1_coefficient_ge_one.1 (init 0) (Reachable.init 0),
   C1_coefficient_ge_one.2 8 5 5⟩

/-! ## C3: a single Tick sleeps for at most 50000 microseconds -/

/-- C3: for every state and every `bytes_arriving`, the sleep a single
`Tick` imposes on the caller is at most 50000 microseconds, and it equals
`bytes_arriving / bytes_per_microsecond_` (the coefficient in force after
any rollover adjustment) clamped to 50000. -/
theorem C3_sleep_bounded (s : RateLimiter) (now bytes_arriving : ℕ) :
    (Tick s now bytes_arriving).2 ≤ 50000 ∧
    (Tick s now bytes_arriving).2 =
      min (bytes_arriving / (Tick s now bytes_arriving).1.bytes_per_microsecond_) 50000 := by
  rw [Tick_snd]
  exact ⟨sleepTime_le _ _, sleepTime_eq_min _ _⟩

end RateLimiter
end kdb

namespace kdb
namespace RateLimiter

/-! ## C6: the writing-rate history is a bounded FIFO of capacity 10 -/

lemma length_storeWritingRate_le (rates : List ℕ) (r : ℕ) (h : rates.length ≤ 10) :
    (storeWritingRate rates r).length ≤ 10 := by
  unfold storeWritingRate
  split_ifs with h10 <;> simp [List.length_drop] <;> omega

lemma foldl_storeWritingRate_id (xs : List ℕ) (h : xs.length ≤ 10) :
    List.foldl storeWritingRate [] xs = xs := by
  induction xs using List.reverseRecOn with
  | nil => rfl
  | append_singleton ys z ih =>
      rw [List.foldl_append, List.foldl_cons, List.foldl_nil,
          ih (by simp at h; omega)]
      unfold storeWritingRate
      rw [if_neg (by simp at h ⊢; omega)]

/-- C6: in every reachable state the history holds at most 10 samples, and
eviction is FIFO: storing 11 samples into an empty history evicts exactly
the first one, leaving samples 2 through 11 in arrival order. -/
theorem C6_history_bounded_fifo :
    (∀ s : RateLimiter, Reachable s → s.rates_.length ≤ 10) ∧
    (∀ xs : List ℕ, xs.length = 11 →
      List.foldl storeWritingRate [] xs = xs.tail) := by
  constructor
  · intro s hs
    induction hs with
    | init rate_limit => norm_num [init]
    | tick s now b _ ih => rw [Tick_fst_rates]; exact ih
    | writeStart s now_ms _ ih => exact ih
    | writeEnd s now_ms n _ ih => exact length_storeWritingRate_le _ _ ih
  · intro xs h
    rcases List.eq_nil_or_concat xs with rfl | ⟨ys, z, rfl⟩
    · simp at h
    · rw [List.concat_eq_append] at h ⊢
      have hy : ys.length = 10 := by simp at h; omega
      rw [List.foldl_append, List.foldl_cons, List.foldl_nil,
          foldl_storeWritingRate_id ys (by omega)]
      unfold storeWritingRate
      rw [if_pos (by omega), List.tail_append_singleton_of_ne_nil
        (by intro hn; rw [hn] at hy; simp at hy), List.drop_one]

/-- C6, witness: the bound instantiated at the freshly constructed limiter,
and the FIFO property at the concrete sample sequence 1..11. -/
theorem C6_history_bounded_fifo_witness :
    (init 0).rates_.length ≤ 10 ∧
    List.foldl storeWritingRate [] [1,2,3,4,5,6,7,8,9,10,11]
      = [2,3,4,5,6,7,8,9,10,11] := by
  refine ⟨C6_history_bounded_fifo.1 (init 0) (Reachable.init 0), ?_⟩
  have h := C6_history_bounded_fifo.2 [1,2,3,4,5,6,7,8,9,10,11] (by decide)
  rw [h]; rfl

/-! ## C2/C5: GetWritingRate -/

lemma foldl_mod_add (l : List ℕ) (a : ℕ) :
    List.foldl (fun s r => (s + r) % U64) (a % U64) l = (a + l.sum) % U64 := by
  induction l generalizing a with
  | nil => simp
  | cons r t ih =>
      rw [List.foldl_cons, Nat.mod_add_mod, ih (a + r), List.sum_cons,
          Nat.add_assoc]

lemma GetWritingRate_eq (rate_limit : ℕ) (rates : List ℕ) :
    GetWritingRate rate_limit rates =
      if rates.length = 0 then 1048576
      else if 0 < rate_limit ∧ rate_limit < rates.sum % U64 / rates.length
           then rate_limit
           else rates.sum % U64 / rates.length := by
  unfold GetWritingRate
  have h : List.foldl (fun s r => (s + r) % U64) 0 rates = rates.sum % U64 := by
    have h0 := foldl_mod_add rates 0
    rw [Nat.zero_mod] at h0
    rw [h0, Nat.zero_add]
  dsimp only
  rw [h]

/-- C2 as amended: `GetWritingRate` is strictly positive exactly when the
history is empty (floor default 1 MiB) or the truncated 64-bit mean of the
stored samples is nonzero; a stored zero-rate sample (e.g. from
`WriteEnd(0)`) can therefore make it return 0. -/
theorem C2_positive_iff (rate_limit : ℕ) (rates : List ℕ) :
    (0 < GetWritingRate rate_limit rates ↔
      rates = [] ∨ 0 < rates.sum % U64 / rates.length) := by
  rw [GetWritingRate_eq]
  rcases rates with _ | ⟨r, t⟩
  · simp
  · rw [if_neg (by simp)]
    split_ifs with h
    · simp only [reduceCtorEq, false_or]
      constructor
      · intro _; omega
      · intro _; omega
    · simp only [reduceCtorEq, false_or]

/-- C2, counterexample to the claim as stated: after a `WriteStart` /
`WriteEnd(0)` bracket inside the same millisecond — a reachable history —
`GetWritingRate()` returns 0, not a strictly positive value. -/
theorem C2_counterexample :
    GetWritingRate (init 0).rate_limit_
      (WriteEnd (WriteStart (init 0) 100) 100 0).rates_ = 0 := by
  decide

/-- C5 as amended: with an empty history `GetWritingRate()` returns exactly
1048576; with a non-empty history it returns the arithmetic mean of the
stored samples truncated to an integer (64-bit sum divided by the count,
integer division), except that when the ceiling is nonzero and lower than
that truncated mean it returns the ceiling exactly. -/
theorem C5_mean_amended (rate_limit : ℕ) (rates : List ℕ) :
    (rates = [] → GetWritingRate rate_limit rates = 1048576) ∧
    (rates ≠ [] →
      GetWritingRate rate_limit rates =
        if 0 < rate_limit ∧ rate_limit < rates.sum % U64 / rates.length
        then rate_limit
        else rates.sum % U64 / rates.length) := by
  rw [GetWritingRate_eq]
  constructor
  · intro h; rw [if_pos (by rw [h]; rfl)]
  · intro h; rw [if_neg (by simpa using h)]

/-- C5, witness: the empty-history default, and the ceiling clamp at a
history with truncated mean 20 and ceiling 7. -/
theorem C5_mean_amended_witness :
    GetWritingRate 0 [] = 1048576 ∧ GetWritingRate 7 [10, 20, 30] = 7 := by
  constructor
  · exact (C5_mean_amended 0 []).1 rfl
  · have h := (C5_mean_amended 7 [10, 20, 30]).2 (by decide)
    rw [h]; decide

/-- C5, counterexample to the claim as stated: for the history `[1, 2]`
(ceiling 0) the code returns 1, which is not the arithmetic mean 3/2 — the
mean is truncated by integer division. -/
theorem C5_counterexample :
    (GetWritingRate 0 [1, 2] : ℚ) ≠ ((1 : ℚ) + 2) / 2 := by
  have h : GetWritingRate 0 [1, 2] = 1 := by decide
  rw [h]; norm_num

end RateLimiter
end kdb

namespace kdb
namespace RateLimiter

/-! ## C4: the controller's band table -/

/-- Modelled from the spec: the controller adjustment as the claim words it,
as a function of the ratio `adjustedArrivalRate / targetRate`: pick the band
factor (overload bands first, then underload bands), multiply the
coefficient by it, truncate the product to an integer, then add 1 if the
result is at most 5. -/
def coefficientUpdateSpec (ratio : ℚ) (c : ℕ) : ℕ :=
  bump (if (3 : ℚ) / 2 < ratio then ⌊(c : ℚ) * ((3 : ℚ) / 4)⌋₊
        else if (11 : ℚ) / 10 < ratio then ⌊(c : ℚ) * ((19 : ℚ) / 20)⌋₊
        else if (21 : ℚ) / 20 < ratio then ⌊(c : ℚ) * ((99 : ℚ) / 100)⌋₊
        else if (1 : ℚ) < ratio then ⌊(c : ℚ) * ((199 : ℚ) / 200)⌋₊
        else if ratio < (1 : ℚ) / 2 then ⌊(c : ℚ) * ((5 : ℚ) / 4)⌋₊
        else if ratio < (9 : ℚ) / 10 then ⌊(c : ℚ) * ((21 : ℚ) / 20)⌋₊
        else if ratio < (19 : ℚ) / 20 then ⌊(c : ℚ) * ((101 : ℚ) / 100)⌋₊
        else ⌊(c : ℚ) * ((201 : ℚ) / 200)⌋₊)

lemma ratio_gt_iff (p q adj w_ : ℕ) (hq : 0 < q) (hw : 0 < w_) :
    ((p : ℚ) / (q : ℚ) < (adj : ℚ) / (w_ : ℚ)) ↔ p * w_ < q * adj := by
  rw [div_lt_div_iff₀ (by exact_mod_cast hq) (by exact_mod_cast hw),
      mul_comm (adj : ℚ) (q : ℚ)]
  exact_mod_cast Iff.rfl

lemma ratio_lt_iff (p q adj w_ : ℕ) (hq : 0 < q) (hw : 0 < w_) :
    ((adj : ℚ) / (w_ : ℚ) < (p : ℚ) / (q : ℚ)) ↔ q * adj < p * w_ := by
  rw [div_lt_div_iff₀ (by exact_mod_cast hw) (by exact_mod_cast hq),
      mul_comm (adj : ℚ) (q : ℚ)]
  exact_mod_cast Iff.rfl

lemma floor_mul_div (c p q : ℕ) :
    ⌊(c : ℚ) * ((p : ℚ) / (q : ℚ))⌋₊ = c * p / q := by
  rw [show (c : ℚ) * ((p : ℚ) / (q : ℚ)) = ((c * p : ℕ) : ℚ) / (q : ℚ) by
        push_cast; ring]
  exact Nat.floor_div_eq_div (c * p) q

/-- C4: for every positive target rate, the code's rollover adjustment of
the coefficient agrees with the spec's band table read on the exact ratio
`adj / w_` (factor ×0.75 for ratio > 1.5, ×0.95 for 1.10 < ratio ≤ 1.50,
×0.99 for 1.05 < ratio ≤ 1.10, ×0.995 for 1.00 < ratio ≤ 1.05, ×1.25 for
ratio < 0.50, ×1.05 for 0.50 ≤ ratio < 0.90, ×1.01 for 0.90 ≤ ratio < 0.95,
×1.005 for 0.95 ≤ ratio ≤ 1.00), with the product truncated to an integer
and 1 added when the result is ≤ 5; in particular coefficient 5 at ratio
8/5 = 1.6 yields 4. -/
theorem C4_controller_bands :
    (∀ adj w_ c : ℕ, 0 < w_ →
      adjustCoefficient adj w_ c = coefficientUpdateSpec ((adj : ℚ) / (w_ : ℚ)) c) ∧
    adjustCoefficient 8 5 5 = 4 := by
  constructor
  · intro adj w_ c hw
    have h1 : ((3 : ℚ) / 2 < (adj : ℚ) / (w_ : ℚ)) ↔ 3 * w_ < 2 * adj := by
      exact_mod_cast ratio_gt_iff 3 2 adj w_ (by norm_num) hw
    have h2 : ((11 : ℚ) / 10 < (adj : ℚ) / (w_ : ℚ)) ↔ 11 * w_ < 10 * adj := by
      exact_mod_cast ratio_gt_iff 11 10 adj w_ (by norm_num) hw
    have h3 : ((21 : ℚ) / 20 < (adj : ℚ) / (w_ : ℚ)) ↔ 21 * w_ < 20 * adj := by
      exact_mod_cast ratio_gt_iff 21 20 adj w_ (by norm_num) hw
    have h4 : ((1 : ℚ) < (adj : ℚ) / (w_ : ℚ)) ↔ w_ < adj := by
      rw [one_lt_div (by exact_mod_cast hw)]
      exact_mod_cast Iff.rfl
    have h5 : ((adj : ℚ) / (w_ : ℚ) < (1 : ℚ) / 2) ↔ 2 * adj < w_ := by
      have h := ratio_lt_iff 1 2 adj w_ (by norm_num) hw
      rw [one_mul] at h
      exact_mod_cast h
    have h6 : ((adj : ℚ) / (w_ : ℚ) < (9 : ℚ) / 10) ↔ 10 * adj < 9 * w_ := by
      exact_mod_cast ratio_lt_iff 9 10 adj w_ (by norm_num) hw
    have h7 : ((adj : ℚ) / (w_ : ℚ) < (19 : ℚ) / 20) ↔ 20 * adj < 19 * w_ := by
      exact_mod_cast ratio_lt_iff 19 20 adj w_ (by norm_num) hw
    have e1 : ⌊(c : ℚ) * ((3 : ℚ) / 4)⌋₊ = c * 3 / 4 := by
      exact_mod_cast floor_mul_div c 3 4
    have e2 : ⌊(c : ℚ) * ((19 : ℚ) / 20)⌋₊ = c * 19 / 20 := by
      exact_mod_cast floor_mul_div c 19 20
    have e3 : ⌊(c : ℚ) * ((99 : ℚ) / 100)⌋₊ = c * 99 / 100 := by
      exact_mod_cast floor_mul_div c 99 100
    have e4 : ⌊(c : ℚ) * ((199 : ℚ) / 200)⌋₊ = c * 199 / 200 := by
      exact_mod_cast floor_mul_div c 199 200
    have e5 : ⌊(c : ℚ) * ((5 : ℚ) / 4)⌋₊ = c * 5 / 4 := by
      exact_mod_cast floor_mul_div c 5 4
    have e6 : ⌊(c : ℚ) * ((21 : ℚ) / 20)⌋₊ = c * 21 / 20 := by
      exact_mod_cast floor_mul_div c 21 20
    have e7 : ⌊(c : ℚ) * ((101 : ℚ) / 100)⌋₊ = c * 101 / 100 := by
      exact_mod_cast floor_mul_div c 101 100
    have e8 : ⌊(c : ℚ) * ((201 : ℚ) / 200)⌋₊ = c * 201 / 200 := by
      exact_mod_cast floor_mul_div c 201 200
    unfold adjustCoefficient coefficientUpdateSpec
    rw [e1, e2, e3, e4, e5, e6, e7, e8]
    simp only [h1, h2, h3, h4, h5, h6, h7]
    split_ifs <;> first | rfl | omega
  · decide

/-- C4, witness: the refinement instantiated at `adj = 8`, `w_ = 5`,
`c = 5`, the claim's ratio-1.6 scenario. -/
theorem C4_controller_bands_witness :
    adjustCoefficient 8 5 5 = coefficientUpdateSpec ((8 : ℚ) / (5 : ℚ)) 5 ∧
    adjustCoefficient 8 5 5 = 4 := by
  refine ⟨?_, C4_controller_bands.2⟩
  have h := C4_controller_bands.1 8 5 5 (by norm_num)
  exact_mod_cast h

/-! ## C8: sustained overload decreases the coefficient strictly -/

/-- C8: at a rollover where the adjusted arrival rate exceeds 1.5 times the
reported writing rate, the new coefficient is strictly smaller than the old
one as long as the floor-bump rule does not engage (i.e. the truncated
×0.75 product still exceeds 5); applied at every epoch of a sustained
overload this makes the coefficient strictly decreasing epoch-over-epoch
until the bump engages. -/
theorem C8_overload_decreases (adj w_ c : ℕ)
    (hover : (3 : ℚ) / 2 * (w_ : ℚ) < (adj : ℚ)) (hnb : 5 < c * 3 / 4) :
    adjustCoefficient adj w_ c < c := by
  have h2 : ((3 * w_ : ℕ) : ℚ) < ((2 * adj : ℕ) : ℚ) := by push_cast; linarith
  have h : 3 * w_ < 2 * adj := by exact_mod_cast h2
  unfold adjustCoefficient
  rw [if_pos (by omega), if_pos h]
  unfold bump
  rw [if_neg (by omega)]
  omega

/-- C8, witness: one overload step from coefficient 8 (writing rate 5,
adjusted arrival 8) to coefficient 6 < 8. -/
theorem C8_overload_decreases_witness :
    (3 : ℚ) / 2 * ((5 : ℕ) : ℚ) < ((8 : ℕ) : ℚ) ∧ 5 < 8 * 3 / 4 ∧
    adjustCoefficient 8 5 8 < 8 :=
  ⟨by norm_num, by decide, C8_overload_decreases 8 5 8 (by norm_num) (by decide)⟩

/-! ## C7: the WriteEnd sample computation -/

lemma writeEndRate_eq (t e b : ℕ) (hte : t ≤ e) :
    writeEndRate t e b = if t = e then b else 1000 * b / (e - t) := by
  unfold writeEndRate
  split_ifs with h
  · rfl
  · have he : (e : ℚ) - (t : ℚ) = ((e - t : ℕ) : ℚ) := by
      rw [Nat.cast_sub hte]
    rw [he, div_div_eq_mul_div,
        show (b : ℚ) * 1000 = ((1000 * b : ℕ) : ℚ) by push_cast; ring]
    exact Nat.floor_div_eq_div (1000 * b) (e - t)

/-- C7: a `WriteStart` at millisecond `t` followed by `WriteEnd(b)` at
millisecond `e ≥ t` stores the sample `b` itself when `t = e`, and
otherwise `b` divided by the elapsed seconds `(e - t) / 1000` (truncated);
in particular `WriteEnd(1000000)` 500 ms after `WriteStart` stores the
sample 2000000 bytes/second. -/
theorem C7_write_end_sample (s : RateLimiter) (t e b : ℕ) (hte : t ≤ e) :
    ((WriteEnd (WriteStart s t) e b).rates_ =
      storeWritingRate s.rates_ (if t = e then b else 1000 * b / (e - t))) ∧
    (WriteEnd (WriteStart s t) (t + 500) 1000000).rates_ =
      storeWritingRate s.rates_ 2000000 := by
  constructor
  · rw [show (WriteEnd (WriteStart s t) e b).rates_ =
        storeWritingRate s.rates_ (writeEndRate t e b) from rfl,
        writeEndRate_eq t e b hte]
  · rw [show (WriteEnd (WriteStart s t) (t + 500) 1000000).rates_ =
        storeWritingRate s.rates_ (writeEndRate t (t + 500) 1000000) from rfl,
        writeEndRate_eq t (t + 500) 1000000 (by omega), if_neg (by omega),
        show t + 500 - t = 500 from by omega]

/-- C7, witness: the 500 ms / 1000000-byte scenario run from the freshly
constructed limiter at start time 0. -/
theorem C7_write_end_sample_witness :
    (0 : ℕ) ≤ 500 ∧
    (WriteEnd (WriteStart (init 0) 0) (0 + 500) 1000000).rates_ =
      storeWritingRate (init 0).rates_ 2000000 :=
  ⟨by decide, (C7_write_end_sample (init 0) 0 500 1000000 (by decide)).2⟩

/-! ## C9: Tick(0) -/

lemma sleepTime_zero (c : ℕ) : sleepTime c 0 = 0 := by
  simp [sleepTime, Nat.zero_div]

lemma Tick_fst_rate_arriving (s : RateLimiter) (now b : ℕ) :
    (Tick s now b).1.rate_arriving_ =
      ((if now ≠ s.epoch_last_ then 0 else s.rate_arriving_) + b) % U64 := by
  unfold Tick; dsimp only
  split_ifs <;> rfl

lemma Tick_fst_epochs (s : RateLimiter) (now b : ℕ) :
    (Tick s now b).1.epoch_current_ = now ∧
    (Tick s now b).1.epoch_last_ =
      (if now ≠ s.epoch_last_ then now else s.epoch_last_) := by
  unfold Tick; dsimp only
  split_ifs <;> exact ⟨rfl, rfl⟩

lemma reachable_rate_arriving_lt (s : RateLimiter) (hs : Reachable s) :
    s.rate_arriving_ < U64 := by
  induction hs with
  | init rate_limit => norm_num [init, U64]
  | tick s now b _ ih =>
      rw [Tick_fst_rate_arriving]
      exact Nat.mod_lt _ (by norm_num [U64])
  | writeStart s now_ms _ ih => exact ih
  | writeEnd s now_ms n _ ih => exact ih

lemma reachable_epochs_eq (s : RateLimiter) (hs : Reachable s) :
    s.epoch_current_ = s.epoch_last_ := by
  induction hs with
  | init _ => rfl
  | tick s now b _ ih =>
      rcases Tick_fst_epochs s now b with ⟨h1, h2⟩
      rw [h1, h2]
      split_ifs with h
      · rfl
      · omega
  | writeStart s now_ms _ ih => exact ih
  | writeEnd s now_ms n _ ih => exact ih

lemma Tick_zero_no_rollover (s : RateLimiter) (hra : s.rate_arriving_ < U64)
    (hep : s.epoch_current_ = s.epoch_last_) :
    Tick s s.epoch_last_ 0 = (s, 0) := by
  obtain ⟨rl, ra, raa, el, ec, ds, c, ews, ewe, rs⟩ := s
  simp only at hra hep
  subst hep
  unfold Tick; dsimp only
  rw [if_neg (show ¬(ec ≠ ec) from by simp)]
  simp only [Nat.add_zero, sleepTime_zero]
  rw [if_neg (show ¬((0 : ℕ) ≠ 0) from by simp)]
  rw [Nat.mod_eq_of_lt hra]

lemma Tick_zero_rollover_fields (s : RateLimiter) (now : ℕ)
    (h : now ≠ s.epoch_last_) :
    (Tick s now 0).1.epoch_last_ = now ∧
    (Tick s now 0).1.rate_arriving_ = 0 ∧
    (Tick s now 0).1.duration_slept_ = 0 := by
  unfold Tick; dsimp only
  rw [if_pos h]
  simp [sleepTime_zero]

/-- C9 as amended: in every reachable state, `Tick(0)` sleeps for 0
microseconds; when the sampled second equals `epoch_last_` it leaves the
whole state (coefficient included) unchanged; when the second differs, the
epoch bookkeeping runs (`epoch_last_` is updated, `rate_arriving_` and
`duration_slept_` are reset) — and the controller adjustment run by that
rollover may change the coefficient even though no bytes arrived. -/
theorem C9_tick_zero_amended (s : RateLimiter) (now : ℕ) (hs : Reachable s) :
    (Tick s now 0).2 = 0 ∧
    (now = s.epoch_last_ → (Tick s now 0).1 = s) ∧
    (now ≠ s.epoch_last_ → (Tick s now 0).1.epoch_last_ = now ∧
      (Tick s now 0).1.rate_arriving_ = 0 ∧
      (Tick s now 0).1.duration_slept_ = 0) := by
  refine ⟨?_, ?_, Tick_zero_rollover_fields s now⟩
  · rw [Tick_snd, sleepTime_zero]
  · intro h
    subst h
    rw [Tick_zero_no_rollover s (reachable_rate_arriving_lt s hs)
      (reachable_epochs_eq s hs)]

/-- C9, witness: `Tick(0)` with an unchanged clock on the freshly
constructed limiter sleeps 0 and leaves the state untouched. -/
theorem C9_tick_zero_amended_witness :
    (Tick (init 0) 0 0).2 = 0 ∧ (Tick (init 0) 0 0).1 = init 0 := by
  have h := C9_tick_zero_amended (init 0) 0 (Reachable.init 0)
  exact ⟨h.1, h.2.1 rfl⟩

/-- C9, counterexample to the claim as stated: `Tick(0)` on the freshly
constructed limiter with the clock at second 1 rolls the epoch over, runs
the controller (adjusted arrival 262144000 against the 1 MiB default
writing rate, overload band ×0.75) and changes the coefficient from 5
to 4 — so `Tick(0)` does not "never change the coefficient". -/
theorem C9_counterexample :
    (Tick (init 0) 1 0).1.bytes_per_microsecond_ ≠
      (init 0).bytes_per_microsecond_ := by
  decide

/-! ## C10: the constructor preloads 250 MiB of arrival credit -/

lemma Tick_fst_rate_arriving_adjusted (s : RateLimiter) (now b : ℕ) :
    (Tick s now b).1.rate_arriving_adjusted_ =
      if now ≠ s.epoch_last_ then
        (s.rate_arriving_ + s.bytes_per_microsecond_ * s.duration_slept_) % U64
      else s.rate_arriving_adjusted_ := by
  unfold Tick; dsimp only
  split_ifs <;> rfl

/-- C10: immediately after construction `rate_arriving_` is
262144000 = 250·1024·1024 (not 0), `duration_slept_` is 0 and the
coefficient is 5; consequently the first rollover (any sampled second
other than the initial `epoch_last_ = 0`, whatever byte count the call
carries) computes `rate_arriving_adjusted_ = 262144000`, i.e. it includes
the preloaded 250 MiB although no bytes were passed to `Tick` before. -/
theorem C10_initial_preload (rate_limit now b : ℕ) :
    (init rate_limit).rate_arriving_ = 262144000 ∧
    (init rate_limit).duration_slept_ = 0 ∧
    (init rate_limit).bytes_per_microsecond_ = 5 ∧
    (now ≠ 0 →
      (Tick (init rate_limit) now b).1.rate_arriving_adjusted_ = 262144000) := by
  refine ⟨rfl, rfl, rfl, ?_⟩
  intro h
  rw [Tick_fst_rate_arriving_adjusted,
      if_pos (show now ≠ (init rate_limit).epoch_last_ from h)]
  norm_num [init, U64]

/-- C10, witness: the first `Tick` at second 1 on the freshly constructed
limiter produces the preloaded adjusted arrival rate. -/
theorem C10_initial_preload_witness :
    (1 : ℕ) ≠ 0 ∧ (Tick (init 0) 1 0).1.rate_arriving_adjusted_ = 262144000 :=
  ⟨by decide, (C10_initial_preload 0 1 0).2.2.2 (by decide)⟩

end RateLimiter
end kdb
